import Mathlib

/-!
Verification of the VLE student-activity pipeline.

The program turns a log of timestamped student activity events plus
per-student final grades into a per-student feature table (the analytics
base table, ABT), and then trains and evaluates classifiers on it.

The embedding below follows the source notebook cell by cell:
* the temporal segmenter (weekday / course-period bucketing via pd.cut),
* the feature aggregator (total_activities, active_days,
  activity_consistency, first/second half counts, per-activity pivot),
* the ABT assembly (concat + fillna(0) + left joins + GRADE_MAP),
* the evaluation harness scaling steps (StandardScaler fit on the
  training partition, transform on both partitions, refit per subset).

Dates are modelled as whole-day offsets (Int); pandas NaN cells are
modelled as `Option.none`; the `fillna(0)` steps are `Option.getD 0`.
Since the square root of a rational is not rational, every place the
source takes a standard deviation (pandas Series.std, sklearn scale_)
is parametrised by an abstract root function `sqrtQ : ℚ → ℚ` applied to
the exact rational variance; all theorems hold for every such function.
-/

namespace VLE

/-- One activity event of the log: student identifier, activity label,
and date (whole days since an arbitrary epoch). -/
structure Event where
  sid : Nat
  act : String
  date : Int
deriving DecidableEq, Repr

/-! ## Temporal Segmenter (notebook cell 1.4) -/

/-- Source: `period_len = ((max_d - min_d).days + 1) // 6`. -/
def period_len (minD maxD : Int) : Int :=
  (maxD - minD + 1) / 6

/-- Source: `period_edges = [min_d + pd.Timedelta(days=i*period_len) for i in range(7)]`. -/
def period_edges (minD maxD : Int) : List Int :=
  (List.range 7).map fun i => minD + (i : Int) * period_len minD maxD

/-- Source: `period_lbls = [...]`, the six course-period labels in order. -/
def period_lbls : List String :=
  ["Early Start", "Start", "Early Mid", "Mid", "Late Mid", "End"]

/-- Semantics of `pd.cut(x, bins=edges)` with the default options
(right=True, include_lowest=False): value x is put in bin i exactly when
edges[i] < x ≤ edges[i+1]; a value on or below the first edge, or above
the last edge, gets no bin (NaN, modelled as none). -/
def pdCutIdx (edges : List Int) (x : Int) : Option Nat :=
  (List.range (edges.length - 1)).find? fun i =>
    decide (edges.getD i 0 < x) && decide (x ≤ edges.getD (i + 1) 0)

/-- Source: `vle_log["period"] = pd.cut(vle_log["date"], bins=period_edges, labels=period_lbls)`:
the period label (if any) the segmenter attaches to an event dated x. -/
def periodOf (minD maxD x : Int) : Option String :=
  (pdCutIdx (period_edges minD maxD) x).bind fun i => period_lbls[i]?

/-! ## Grade map (notebook cells 1.5 and 2) -/

/-- Source: `GRADE_MAP = {"fail":1,"pass":2,"merit":3,"distinction":4}`. -/
def GRADE_MAP : List (String × Nat) :=
  [("fail", 1), ("pass", 2), ("merit", 3), ("distinction", 4)]

/-- Semantics of `Series.map(GRADE_MAP)` on one cell: a dictionary lookup
that silently yields NaN (none) when the key is absent. -/
def mapGrade (g : String) : Option Nat :=
  GRADE_MAP.lookup g

/-- The four recognized grade categories, in GRADE_MAP order. -/
def recognized_grades : List String :=
  GRADE_MAP.map Prod.fst

/-- The inverse map named by the spec: `{1:fail,2:pass,3:merit,4:distinction}`. -/
def INV_GRADE_MAP : List (Nat × String) :=
  [(1, "fail"), (2, "pass"), (3, "merit"), (4, "distinction")]

/-- Lookup in the inverse map. -/
def invGrade (n : Nat) : Option String :=
  INV_GRADE_MAP.lookup n

/-- Source: `abt["grade_numeric"] = abt["final_grade"].map(GRADE_MAP)` on one
row: the final_grade cell may itself be missing (student without a label,
left join), and an unrecognized label maps to none. -/
def grade_numeric_cell (fg : Option String) : Option Nat :=
  fg.bind mapGrade

/-! ## Feature Aggregator (notebook cell 2, Build ABT) -/

/-- The rows of one groupby(student_id) group, in log order. -/
def eventsOf (evs : List Event) (s : Nat) : List Event :=
  evs.filter fun e => e.sid == s

/-- The students present in the Event Store (the groupby index). -/
def students (evs : List Event) : List Nat :=
  (evs.map (·.sid)).dedup

/-- Source: `total_acts = vle_log.groupby("student_id").size()`. -/
def total_acts (evs : List Event) (s : Nat) : Nat :=
  (eventsOf evs s).length

/-- The date column of one student group. -/
def datesOf (evs : List Event) (s : Nat) : List Int :=
  (eventsOf evs s).map (·.date)

/-- Source: `active_days = vle_log.groupby("student_id")["date"].nunique()`. -/
def active_days (evs : List Event) (s : Nat) : Nat :=
  (datesOf evs s).dedup.length

/-- Source: `df.sort_values("date")` restricted to the date column. -/
def sortDates (l : List Int) : List Int :=
  l.insertionSort (· ≤ ·)

/-- Source: `.diff().dt.days.dropna()`: the consecutive differences of a
column (the leading NaN of diff is dropped). -/
def dayGaps : List Int → List Int
  | a :: b :: rest => (b - a) :: dayGaps (b :: rest)
  | _ => []

/-- pandas Series.mean over an exact rational column. -/
def seriesMean (l : List ℚ) : ℚ :=
  l.sum / l.length

/-- pandas Series.std (default ddof=1): NaN (none) when the series has
fewer than two samples, else the root of the sample variance. The root
is taken by the abstract function sqrtQ (see the file header). -/
def seriesStd (sqrtQ : ℚ → ℚ) (l : List ℚ) : Option ℚ :=
  if l.length < 2 then none
  else some (sqrtQ ((l.map fun x => (x - seriesMean l) ^ 2).sum / ((l.length : ℚ) - 1)))

/-- Source:
```
def stdev_gap(df):
    if len(df)<2: return 0
    gaps = df.sort_values("date")["date"].diff().dt.days.dropna()
    return 0 if gaps.empty else gaps.std()
```
Note gaps.std() is itself NaN (none) when there is exactly one gap. -/
def stdev_gap (sqrtQ : ℚ → ℚ) (dates : List Int) : Option ℚ :=
  if dates.length < 2 then some 0
  else
    let gaps := dayGaps (sortDates dates)
    if gaps.isEmpty then some 0
    else seriesStd sqrtQ (gaps.map (Int.cast))

/-- Source: `activity_consist = vle_log.groupby("student_id").apply(stdev_gap)`. -/
def activity_consist (sqrtQ : ℚ → ℚ) (evs : List Event) (s : Nat) : Option ℚ :=
  stdev_gap sqrtQ (datesOf evs s)

/-- Source: `midpoint = min_d + (max_d-min_d)/2` (pandas divides the
timedelta exactly, so the midpoint may be a half day). -/
def mid_point (minD maxD : Int) : ℚ :=
  (minD : ℚ) + ((maxD : ℚ) - (minD : ℚ)) / 2

/-- Source: `first_half = vle_log[vle_log["date"]<=midpoint].groupby("student_id").size()`:
a student with no event in the first half is absent from the series (none). -/
def first_half_opt (evs : List Event) (minD maxD : Int) (s : Nat) : Option Nat :=
  let c := (eventsOf evs s).countP fun e => decide ((e.date : ℚ) ≤ mid_point minD maxD)
  if c = 0 then none else some c

/-- Source: `second_half = vle_log[vle_log["date"]> midpoint].groupby("student_id").size()`. -/
def second_half_opt (evs : List Event) (minD maxD : Int) (s : Nat) : Option Nat :=
  let c := (eventsOf evs s).countP fun e => decide (mid_point minD maxD < (e.date : ℚ))
  if c = 0 then none else some c

/-- The five fixed aggregate feature columns of the ABT. -/
inductive AggFeature
  | total
  | activeDays
  | consist
  | firstHalf
  | secondHalf
deriving DecidableEq, Repr

/-- Source: `features = pd.concat({...}, axis=1).fillna(0)`: the cell of
the concatenated-and-zero-filled feature frame for student s. The NaN
cells (a half with no events, a one-gap std) become 0 via fillna. -/
def featureVal (sqrtQ : ℚ → ℚ) (evs : List Event) (minD maxD : Int) (s : Nat) :
    AggFeature → ℚ
  | .total => total_acts evs s
  | .activeDays => active_days evs s
  | .consist => (activity_consist sqrtQ evs s).getD 0
  | .firstHalf => ((first_half_opt evs minD maxD s).getD 0 : Nat)
  | .secondHalf => ((second_half_opt evs minD maxD s).getD 0 : Nat)

/-! ## ABT Assembler (notebook cell 2, continued) -/

/-- Source: `activity_pivot = vle_log.groupby(["student_id","activity"]).size().unstack(fill_value=0)`:
the count of events of student s with activity a (unstack zero-fills the
cells of observed activity columns). -/
def activity_pivot (evs : List Event) (s : Nat) (a : String) : Nat :=
  (eventsOf evs s).countP fun e => e.act == a

/-- The pivot frame has a row only for students with at least one event;
the left join looks that row up and yields NaN cells (none) otherwise. -/
def pivotRow (evs : List Event) (s : Nat) : Option (String → Nat) :=
  if (eventsOf evs s).isEmpty then none else some (activity_pivot evs s)

/-- A column of the ABT: one of the five aggregates, or the pivoted count
column of one activity type. -/
inductive Col
  | agg (f : AggFeature)
  | actType (a : String)
deriving DecidableEq

/-- Source: `abt = features.join(activity_pivot, how="left").fillna(0).join(...)`:
the numeric cell of the ABT for student s and column c, after the
concat fillna and the join fillna. -/
def abtCell (sqrtQ : ℚ → ℚ) (evs : List Event) (minD maxD : Int) (s : Nat) :
    Col → Option ℚ
  | .agg f => some (featureVal sqrtQ evs minD maxD s f)
  | .actType a => some ((((pivotRow evs s).map fun r => ((r a : ℚ))).getD 0))

/-- The events a given ABT column counts over, for one student: the whole
group for the three global aggregates, the half-filtered group for the
half counts, the activity-filtered group for a pivot column. -/
def colEvents (evs : List Event) (minD maxD : Int) (s : Nat) : Col → List Event
  | .agg .firstHalf =>
      (eventsOf evs s).filter fun e => decide ((e.date : ℚ) ≤ mid_point minD maxD)
  | .agg .secondHalf =>
      (eventsOf evs s).filter fun e => decide (mid_point minD maxD < (e.date : ℚ))
  | .agg _ => eventsOf evs s
  | .actType a => (eventsOf evs s).filter fun e => e.act == a

/-! ## Evaluation Harness: stratified cross-validation feasibility (cell 3.2) -/

/-- Modelled from the spec: the reportable configuration error of the
Evaluation Harness (the check itself lives in the sklearn library the
notebook calls, not under src/): a requested evaluation parameter that is
infeasible given the data is surfaced to the caller before any model is
fit. -/
inductive HarnessError
  | configurationError (msg : String)
deriving DecidableEq, Repr

/-- The number of members of class c in a label column. -/
def classCount (y : List String) (c : String) : Nat :=
  y.countP (· == c)

/-- Modelled from the spec: the feasibility condition of a stratified
k-fold request (sklearn StratifiedKFold, not under src/): every class
appearing in y must have at least nSplits members. -/
def stratified_feasible (y : List String) (nSplits : Nat) : Bool :=
  y.all fun c => nSplits ≤ classCount y c

/-- Modelled from the spec: `cross_val_score(model, X, y, cv=StratifiedKFold(n_splits))`
with the feasibility check performed when the folds are generated, before
any model is fit: on an infeasible request the run ends in a
configuration error and the fitting function is never consulted. -/
def cross_val_score (α : Type) (y : List String) (nSplits : Nat)
    (fitScore : List String → α) : Except HarnessError (List α) :=
  if stratified_feasible y nSplits then
    .ok ((List.range nSplits).map fun _ => fitScore y)
  else
    .error (.configurationError
      "n_splits cannot be greater than the number of members in each class")

/-- Modelled from the spec: the stratified hold-out split preserves class
proportions within rounding, so a class with n members keeps
floor((1 - holdOut) * n) of them in the training partition. -/
def trainClassCount (holdOut : ℚ) (n : Nat) : Nat :=
  (⌊(1 - holdOut) * (n : ℚ)⌋).toNat

/-- Modelled from the spec: the stratified hold-out split is feasible
only when every class keeps at least one member in the training
partition; with extreme class imbalance a class may be left absent. -/
def stratified_split_feasible (y : List String) (holdOut : ℚ) : Bool :=
  y.all fun c => decide (0 < trainClassCount holdOut (classCount y c))

/-- Modelled from the spec: `train_test_split(X, y, test_size=holdOut, stratify=y)`,
called by the notebook but implemented in the sklearn library (not under
src/): a class that would be absent from the training partition makes
the stratified split infeasible and surfaces a configuration error;
otherwise the per-class training allocation is produced. -/
def train_test_split (y : List String) (holdOut : ℚ) :
    Except HarnessError (List (String × Nat)) :=
  if stratified_split_feasible y holdOut then
    .ok (y.dedup.map fun c => (c, trainClassCount holdOut (classCount y c)))
  else
    .error (.configurationError
      "a class is absent from the training partition for the requested hold-out fraction")

/-- Modelled from the spec: the harness fits a model only after the
stratified split has succeeded, so an infeasible split ends the run
before the fitting function is ever consulted. -/
def split_then_fit (α : Type) (y : List String) (holdOut : ℚ)
    (fitModel : List (String × Nat) → α) : Except HarnessError α :=
  (train_test_split y holdOut).map fitModel

/-! ## Evaluation Harness: feature scaling (cells 3.1 and 4) -/

/-- Per-column mean of a data matrix column (sklearn stores mean over the
fitted data). -/
def colMean (c : List ℚ) : ℚ :=
  c.sum / c.length

/-- Per-column variance of a data matrix column (sklearn StandardScaler
uses the ddof=0 variance for scale_). -/
def colVar (c : List ℚ) : ℚ :=
  (c.map fun x => (x - colMean c) ^ 2).sum / c.length

/-- The state a fitted StandardScaler holds: per-column mean and variance
of the data it was fitted on. -/
structure ScalerState where
  mean : List ℚ
  var : List ℚ
deriving DecidableEq, Repr

/-- StandardScaler.fit: statistics are computed from the given matrix
(a list of columns) and nothing else. -/
def scalerFit (X : List (List ℚ)) : ScalerState :=
  ⟨X.map colMean, X.map colVar⟩

/-- StandardScaler.transform with a given fitted state: every column is
shifted by the fitted mean and divided by the fitted scale (the root of
the fitted variance, taken by the abstract sqrtQ). -/
def scalerTransform (sqrtQ : ℚ → ℚ) (st : ScalerState) (X : List (List ℚ)) :
    List (List ℚ) :=
  (X.zip (st.mean.zip st.var)).map fun p =>
    p.1.map fun x => (x - p.2.1) / sqrtQ p.2.2

/-- StandardScaler.fit_transform on a scaler object whose prior state is
st0: the prior state is discarded, the scaler is refit on X, and X is
transformed with the fresh statistics. -/
def fit_transform (sqrtQ : ℚ → ℚ) (st0 : ScalerState) (X : List (List ℚ)) :
    ScalerState × List (List ℚ) :=
  let _ := st0
  let st := scalerFit X
  (st, scalerTransform sqrtQ st X)

/-- Source (cell 3.1): `X_train_s = scaler.fit_transform(X_train); X_test_s = scaler.transform(X_test)`:
the scaler is fit on the training partition only and the same fitted
state transforms both partitions; the state the scaler held before
(st0) is overwritten. -/
def scale_split (sqrtQ : ℚ → ℚ) (st0 : ScalerState) (Xtr Xte : List (List ℚ)) :
    ScalerState × (List (List ℚ) × List (List ℚ)) :=
  let p := fit_transform sqrtQ st0 Xtr
  (p.1, (p.2, scalerTransform sqrtQ p.1 Xte))

/-- Source (cell 4): `X_train[cols]`: column selection of a feature
subset from a matrix stored as a list of columns. -/
def selectCols (cols : List Nat) (X : List (List ℚ)) : List (List ℚ) :=
  cols.map fun i => X.getD i []

/-- Source (cell 4): the subset loop
```
for name,cols in subsets.items():
    Xtr = scaler.fit_transform(X_train[cols]); Xte = scaler.transform(X_test[cols])
    ...
```
sharing one scaler object across iterations: the state left by the
previous iteration is threaded in and overwritten by the refit. -/
def subset_loop (sqrtQ : ℚ → ℚ) (subsets : List (String × List Nat))
    (Xtr Xte : List (List ℚ)) (st0 : ScalerState) :
    List (String × (List (List ℚ) × List (List ℚ))) :=
  match subsets with
  | [] => []
  | (n, cols) :: rest =>
      let r := scale_split sqrtQ st0 (selectCols cols Xtr) (selectCols cols Xte)
      (n, r.2) :: subset_loop sqrtQ rest Xtr Xte r.1

/-! ## Witness data -/

/-- A one-event store: student 1 has a single quiz event on day 3. -/
def evs_c7 : List Event := [⟨1, "quiz", 3⟩]

/-- A two-event store: student 1 has two quiz events five days apart. -/
def evs_c8 : List Event := [⟨1, "quiz", 0⟩, ⟨1, "quiz", 5⟩]

/-- A three-event store: student 1 has quiz events on days 0, 2 and 6. -/
def evs_c8w : List Event := [⟨1, "quiz", 0⟩, ⟨1, "quiz", 2⟩, ⟨1, "quiz", 6⟩]

/-- A two-student store for the zero-fill invariant: student 1 never
produces a "video" event. -/
def evs_c5 : List Event := [⟨1, "quiz", 2⟩, ⟨2, "video", 3⟩]

/-- A two-event store with distinct dates for the consistency zero-fill. -/
def evs_c10 : List Event := [⟨1, "lab", 0⟩, ⟨1, "lab", 7⟩]

/-- Another two-event store: student 2 has video events on days 1 and 4. -/
def evs_c8b : List Event := [⟨2, "video", 1⟩, ⟨2, "video", 4⟩]

/-- A label column with a class of only 3 members (and 20 of another). -/
def y_c3 : List String := List.replicate 3 "fail" ++ List.replicate 20 "pass"

/-- A label column with a single "merit" member among nine students. -/
def y_split : List String := "merit" :: List.replicate 8 "pass"

/-- The reading of activity_consistency the spec states: the sample
standard deviation (ddof = 1) of the day gaps between the consecutive
sorted event dates, with no zero-fill applied. -/
def sample_std_of_gaps (sqrtQ : ℚ → ℚ) (dates : List Int) : Option ℚ :=
  seriesStd sqrtQ ((dayGaps (sortDates dates)).map (Int.cast))

/-! ## Helper lemmas -/

/-- A list splits into the members satisfying a predicate and the rest. -/
theorem countP_add_countP_not {α : Type} (p : α → Bool) (l : List α) :
    l.countP p + l.countP (fun a => !p a) = l.length := by
  induction l with
  | nil => rfl
  | cons a t ih =>
    by_cases h : p a <;> simp [List.countP_cons, h] <;> omega

/-- A student is in the Event Store index exactly when its group of
events is nonempty. -/
theorem mem_students_iff (evs : List Event) (s : Nat) :
    s ∈ students evs ↔ eventsOf evs s ≠ [] := by
  constructor
  · intro hs hnil
    simp only [students, List.mem_dedup, List.mem_map] at hs
    obtain ⟨e, he, hsid⟩ := hs
    simp only [eventsOf, List.filter_eq_nil_iff] at hnil
    exact hnil e he (by simp [hsid])
  · intro hne
    rcases List.exists_mem_of_ne_nil _ hne with ⟨e, he⟩
    simp only [eventsOf, List.mem_filter, beq_iff_eq] at he
    simp only [students, List.mem_dedup, List.mem_map]
    exact ⟨e, he.1, he.2⟩

/-- dayGaps shortens a list by one element. -/
theorem dayGaps_length (l : List Int) : (dayGaps l).length = l.length - 1 := by
  induction l with
  | nil => rfl
  | cons a t ih =>
    cases t with
    | nil => rfl
    | cons b r =>
      simp only [dayGaps, List.length_cons] at ih ⊢
      omega

/-- Sorting the date column keeps its length. -/
theorem sortDates_length (l : List Int) : (sortDates l).length = l.length :=
  List.length_insertionSort _ l

/-- A list of positive length is not isEmpty. -/
theorem isEmpty_eq_false_of_length_pos {α : Type} {l : List α}
    (h : 0 < l.length) : l.isEmpty = false := by
  cases l with
  | nil => simp at h
  | cons a t => rfl

/-- The date column of a group is as long as the group. -/
theorem datesOf_length (evs : List Event) (s : Nat) :
    (datesOf evs s).length = total_acts evs s := by
  simp [datesOf, total_acts]

/-! ## Claims -/

/-- C1: the spec requires the Temporal Segmenter to give every event
exactly one of the six period labels, with an event dated max_date in
the last bucket and rounding leftovers pushed to the nearest bucket.
The source instead labels events with pd.cut over the seven computed
edges, whose bins are the half-open intervals (edge i, edge i+1]: an
event dated min_date is on the first edge and gets no label at all, and
when the span leaves a remainder (here days 0..10, edges 0..6) an event
dated max_date lies beyond the last edge and also gets no label, while
interior events are labelled normally. -/
theorem c1_period_cut_leaves_events_unlabelled :
    periodOf 0 10 0 = none ∧ periodOf 0 10 10 = none ∧
      periodOf 0 10 3 = some "Early Mid" := by
  decide

/-- C2 counterexample: the claim says an unrecognized grade string such
as "honors" raises a SchemaError during ABT assembly; in the source the
grade_numeric cell is produced by Series.map(GRADE_MAP), which is total:
on "honors" it silently yields a missing value (none), and assembly
proceeds. -/
theorem c2_counterexample_honors_maps_silently :
    grade_numeric_cell (some "honors") = none ∧ mapGrade "honors" = none := by
  decide

/-- C2 amended: mapping the final_grade column sends each of the four
recognized categories to its numeric code and every other label — in
particular "honors" — silently to a missing value; no error is raised. -/
theorem c2_amended_unrecognized_grade_maps_to_missing :
    (∀ g ∈ recognized_grades, (mapGrade g).isSome = true) ∧
    (∀ g : String, g ∉ recognized_grades → mapGrade g = none) ∧
    grade_numeric_cell (some "honors") = none := by
  refine ⟨?_, ?_, by decide⟩
  · intro g hg
    simp only [recognized_grades, GRADE_MAP, List.map, List.mem_cons,
      List.not_mem_nil, or_false] at hg
    rcases hg with rfl | rfl | rfl | rfl <;> decide
  · intro g hg
    simp only [recognized_grades, GRADE_MAP, List.map, List.mem_cons,
      List.not_mem_nil, or_false, not_or] at hg
    obtain ⟨h1, h2, h3, h4⟩ := hg
    have e1 : (g == "fail") = false := beq_eq_false_iff_ne.mpr h1
    have e2 : (g == "pass") = false := beq_eq_false_iff_ne.mpr h2
    have e3 : (g == "merit") = false := beq_eq_false_iff_ne.mpr h3
    have e4 : (g == "distinction") = false := beq_eq_false_iff_ne.mpr h4
    simp [mapGrade, GRADE_MAP, List.lookup, e1, e2, e3, e4]

/-- C2 witness: the amended theorem applied at the concrete labels
"wat" (unrecognized, maps to missing) and "fail" (recognized). -/
theorem c2_amended_witness :
    mapGrade "wat" = none ∧ (mapGrade "fail").isSome = true :=
  ⟨c2_amended_unrecognized_grade_maps_to_missing.2.1 "wat" (by decide),
   c2_amended_unrecognized_grade_maps_to_missing.1 "fail" (by decide)⟩

/-- C9: composing GRADE_MAP with the inverse map
{1:fail, 2:pass, 3:merit, 4:distinction} is the identity on the four
recognized grade labels, so grade_numeric reproduces final_grade on
every labelled row. -/
theorem c9_label_round_trip :
    ∀ g ∈ recognized_grades, (mapGrade g).bind invGrade = some g := by
  intro g hg
  simp only [recognized_grades, GRADE_MAP, List.map, List.mem_cons,
    List.not_mem_nil, or_false] at hg
  rcases hg with rfl | rfl | rfl | rfl <;> decide

/-- C9 witness: the round trip at the concrete label "merit". -/
theorem c9_label_round_trip_witness :
    "merit" ∈ recognized_grades ∧ (mapGrade "merit").bind invGrade = some "merit" :=
  ⟨by decide, c9_label_round_trip "merit" (by decide)⟩

/-- C3: an infeasible stratified request makes the Evaluation Harness
surface a configuration error before any model is fit, in both branches
the claim names: (a) stratified k-fold cross-validation on a training
partition where some class has fewer members than the fold count, and
(b) a stratified hold-out split whose per-class training allocation
would leave some class absent from the training partition; in each case
the error is produced whatever the fitting function is, so no model is
fit first and no metrics are computed over fewer classes. -/
theorem c3_infeasible_split_or_cv_errors_before_fit :
    ∀ (α : Type) (y : List String) (c : String), c ∈ y →
      (∀ (nSplits : Nat) (fitScore : List String → α),
        classCount y c < nSplits →
        cross_val_score α y nSplits fitScore =
          .error (.configurationError
            "n_splits cannot be greater than the number of members in each class")) ∧
      (∀ (holdOut : ℚ) (fitModel : List (String × Nat) → α),
        trainClassCount holdOut (classCount y c) = 0 →
        split_then_fit α y holdOut fitModel =
          .error (.configurationError
            "a class is absent from the training partition for the requested hold-out fraction")) := by
  intro α y c hc
  constructor
  · intro n fit hlt
    have hfalse : stratified_feasible y n = false := by
      apply List.all_eq_false.mpr
      exact ⟨c, hc, by simpa using hlt⟩
    simp [cross_val_score, hfalse]
  · intro holdOut fit h0
    have hfalse : stratified_split_feasible y holdOut = false := by
      apply List.all_eq_false.mpr
      refine ⟨c, hc, ?_⟩
      simp [h0]
    simp [split_then_fit, train_test_split, hfalse, Except.map]

/-- C3 witness: requesting 10-fold stratified cross-validation on a
label column whose "fail" class has only 3 members yields the
configuration error, and so does a 0.25 hold-out stratified split on a
label column whose "merit" class has a single member (its training
allocation floor(0.75 * 1) is empty), each for a concrete fitting
function. -/
theorem c3_infeasible_split_or_cv_witness :
    ("fail" ∈ y_c3 ∧ classCount y_c3 "fail" < 10 ∧
      cross_val_score Nat y_c3 10 (fun _ => 0) =
        .error (.configurationError
          "n_splits cannot be greater than the number of members in each class")) ∧
    ("merit" ∈ y_split ∧ trainClassCount (1/4) (classCount y_split "merit") = 0 ∧
      split_then_fit Nat y_split (1/4) (fun _ => 0) =
        .error (.configurationError
          "a class is absent from the training partition for the requested hold-out fraction")) := by
  have h0 : trainClassCount (1/4) (classCount y_split "merit") = 0 := by
    have h1 : classCount y_split "merit" = 1 := by decide
    rw [h1]
    unfold trainClassCount
    norm_num
  constructor
  · exact ⟨by decide, by decide,
      (c3_infeasible_split_or_cv_errors_before_fit Nat y_c3 "fail" (by decide)).1
        10 (fun _ => 0) (by decide)⟩
  · exact ⟨by decide, h0,
      (c3_infeasible_split_or_cv_errors_before_fit Nat y_split "merit" (by decide)).2
        (1/4) (fun _ => 0) h0⟩

/-- C4: for the train/test split and for every feature subset, the
standardization statistics are computed from the (subset-selected)
training partition only and the same fitted state transforms both
partitions; every subset-loop iteration refits fresh statistics, so no
state fitted on a different column set (including the st0 the shared
scaler object happened to hold) leaks into any result. -/
theorem c4_scaling_fit_on_train_and_fresh_per_subset :
    ∀ (sqrtQ : ℚ → ℚ) (Xtr Xte : List (List ℚ)),
      (∀ st0 : ScalerState,
        scale_split sqrtQ st0 Xtr Xte =
          (scalerFit Xtr,
           (scalerTransform sqrtQ (scalerFit Xtr) Xtr,
            scalerTransform sqrtQ (scalerFit Xtr) Xte))) ∧
      (∀ (subsets : List (String × List Nat)) (st0 : ScalerState),
        subset_loop sqrtQ subsets Xtr Xte st0 =
          subsets.map fun p =>
            (p.1,
             (scalerTransform sqrtQ (scalerFit (selectCols p.2 Xtr)) (selectCols p.2 Xtr),
              scalerTransform sqrtQ (scalerFit (selectCols p.2 Xtr)) (selectCols p.2 Xte)))) := by
  intro sqrtQ Xtr Xte
  constructor
  · intro st0
    rfl
  · intro subsets
    induction subsets with
    | nil => intro st0; rfl
    | cons hd tl ih =>
      intro st0
      obtain ⟨n, cols⟩ := hd
      simp only [subset_loop, scale_split, fit_transform, List.map_cons, ih]

/-- C5: the zero-fill invariant of the ABT: for every student present in
the Event Store, every column — the five aggregates and every pivoted
activity-type count — holds a defined numeric cell, and a combination
whose underlying event set is empty holds 0, never a missing value. -/
theorem c5_zero_fill_invariant (sqrtQ : ℚ → ℚ) (evs : List Event) (minD maxD : Int)
    (s : Nat) (hs : s ∈ students evs) (c : Col) :
    ∃ q : ℚ, abtCell sqrtQ evs minD maxD s c = some q ∧
      (colEvents evs minD maxD s c = [] → q = 0) := by
  have hne : eventsOf evs s ≠ [] := (mem_students_iff evs s).mp hs
  cases c with
  | agg f =>
    cases f with
    | total => exact ⟨_, rfl, fun h => absurd h hne⟩
    | activeDays => exact ⟨_, rfl, fun h => absurd h hne⟩
    | consist => exact ⟨_, rfl, fun h => absurd h hne⟩
    | firstHalf =>
      refine ⟨_, rfl, fun h => ?_⟩
      simp only [colEvents] at h
      have hc : (eventsOf evs s).countP
          (fun e => decide ((e.date : ℚ) ≤ mid_point minD maxD)) = 0 := by
        rw [List.countP_eq_length_filter, h]
        rfl
      simp [featureVal, first_half_opt, hc]
    | secondHalf =>
      refine ⟨_, rfl, fun h => ?_⟩
      simp only [colEvents] at h
      have hc : (eventsOf evs s).countP
          (fun e => decide (mid_point minD maxD < (e.date : ℚ))) = 0 := by
        rw [List.countP_eq_length_filter, h]
        rfl
      simp [featureVal, second_half_opt, hc]
  | actType a =>
    have hemp : (eventsOf evs s).isEmpty = false := by
      cases hEv : eventsOf evs s with
      | nil => exact absurd hEv hne
      | cons x t => rfl
    refine ⟨(activity_pivot evs s a : ℚ), ?_, fun h => ?_⟩
    · simp [abtCell, pivotRow, hemp]
    · simp only [colEvents] at h
      have hc : activity_pivot evs s a = 0 := by
        rw [activity_pivot, List.countP_eq_length_filter, h]
        rfl
      simp [hc]

/-- C5 witness: in the concrete store evs_c5, student 1 is present, and
the pivot column of the activity "video" (for which student 1 has no
events) is a defined cell holding 0. -/
theorem c5_zero_fill_witness :
    1 ∈ students evs_c5 ∧
      ∃ q : ℚ, abtCell id evs_c5 0 10 1 (Col.actType "video") = some q ∧
        (colEvents evs_c5 0 10 1 (Col.actType "video") = [] → q = 0) :=
  ⟨by decide, c5_zero_fill_invariant id evs_c5 0 10 1 (by decide) (Col.actType "video")⟩

/-- Deciding a strict inequality is the negation of deciding the
opposite weak inequality. -/
theorem decide_lt_eq_not_decide_le (x y : ℚ) :
    decide (y < x) = !decide (x ≤ y) := by
  by_cases h : x ≤ y
  · simp [h, not_lt.mpr h]
  · simp [h, not_le.mp h]

/-- C6: half-split completeness: for every student, the zero-filled
first-half count plus the zero-filled second-half count equals
total_activities, because the two filters date ≤ midpoint and
date > midpoint partition the student group. -/
theorem c6_half_split_completeness (sqrtQ : ℚ → ℚ) (evs : List Event)
    (minD maxD : Int) (s : Nat) :
    featureVal sqrtQ evs minD maxD s .firstHalf +
      featureVal sqrtQ evs minD maxD s .secondHalf =
      featureVal sqrtQ evs minD maxD s .total := by
  have hgetD : ∀ c : Nat, (if c = 0 then (none : Option Nat) else some c).getD 0 = c := by
    intro c
    split <;> simp_all
  have hnot : (fun e : Event => decide (mid_point minD maxD < (e.date : ℚ)))
      = fun e : Event => !decide ((e.date : ℚ) ≤ mid_point minD maxD) := by
    funext e
    exact decide_lt_eq_not_decide_le _ _
  simp only [featureVal, first_half_opt, second_half_opt, hgetD, total_acts, hnot]
  exact_mod_cast countP_add_countP_not
    (fun e : Event => decide ((e.date : ℚ) ≤ mid_point minD maxD)) (eventsOf evs s)

/-- C7: a student with fewer than two events gets the deliberate policy
value 0 for activity_consistency — a defined numeric value produced by
the early return of stdev_gap, not a NaN and not an error. -/
theorem c7_consistency_edge_policy (sqrtQ : ℚ → ℚ) (evs : List Event)
    (minD maxD : Int) (s : Nat) (h : total_acts evs s < 2) :
    activity_consist sqrtQ evs s = some 0 ∧
      featureVal sqrtQ evs minD maxD s .consist = 0 := by
  have hd : (datesOf evs s).length < 2 := by
    rw [datesOf_length]
    exact h
  constructor
  · simp [activity_consist, stdev_gap, hd]
  · simp [featureVal, activity_consist, stdev_gap, hd]

/-- C7 witness: the one-event student of evs_c7 has consistency some 0
in the raw aggregate and 0 in the feature frame. -/
theorem c7_consistency_edge_policy_witness :
    total_acts evs_c7 1 < 2 ∧ activity_consist id evs_c7 1 = some 0 ∧
      featureVal id evs_c7 0 10 1 .consist = 0 :=
  ⟨by decide, (c7_consistency_edge_policy id evs_c7 0 10 1 (by decide)).1,
   (c7_consistency_edge_policy id evs_c7 0 10 1 (by decide)).2⟩

/-- C8 counterexample: the claim states that every student with at least
2 events has activity_consistency equal to the sample standard deviation
(ddof = 1) of its day gaps; for the two-event student of evs_c8 the
sample standard deviation of the single gap is undefined (NaN), while
the stored feature value is the zero-filled 0, so the two differ. -/
theorem c8_counterexample_two_events :
    2 ≤ total_acts evs_c8 1 ∧
      some (featureVal id evs_c8 0 5 1 .consist) ≠
        sample_std_of_gaps id (datesOf evs_c8 1) := by
  constructor
  · decide
  · decide

/-- C8 amended: for every student with at least 3 events the stored
activity_consistency equals the sample standard deviation (ddof = 1) of
the day gaps between its consecutive sorted event dates; for a student
with exactly 2 events the single-gap sample standard deviation is NaN
and the stored value is the zero-filled 0. -/
theorem c8_amended_consistency_is_sample_std (sqrtQ : ℚ → ℚ) (evs : List Event)
    (minD maxD : Int) (s : Nat) :
    (3 ≤ total_acts evs s →
      some (featureVal sqrtQ evs minD maxD s .consist) =
        sample_std_of_gaps sqrtQ (datesOf evs s)) ∧
    (total_acts evs s = 2 →
      featureVal sqrtQ evs minD maxD s .consist = 0) := by
  have hlen : (datesOf evs s).length = total_acts evs s := datesOf_length evs s
  have hglen : (dayGaps (sortDates (datesOf evs s))).length
      = (datesOf evs s).length - 1 := by
    rw [dayGaps_length, sortDates_length]
  constructor
  · intro h3
    have h2 : ¬ (datesOf evs s).length < 2 := by omega
    have hpos : 0 < (dayGaps (sortDates (datesOf evs s))).length := by omega
    have hemp := isEmpty_eq_false_of_length_pos hpos
    have hcond : ¬ (dayGaps (sortDates (datesOf evs s))).length < 2 := by omega
    simp [featureVal, activity_consist, stdev_gap, h2, hemp,
      sample_std_of_gaps, seriesStd, List.length_map, hcond]
  · intro h2eq
    have h2 : ¬ (datesOf evs s).length < 2 := by omega
    have hpos : 0 < (dayGaps (sortDates (datesOf evs s))).length := by omega
    have hemp := isEmpty_eq_false_of_length_pos hpos
    have hcond : (dayGaps (sortDates (datesOf evs s))).length < 2 := by omega
    simp [featureVal, activity_consist, stdev_gap, h2, hemp,
      seriesStd, List.length_map, hcond]

/-- C8 witness: the amended theorem applied to the three-event student
of evs_c8w (consistency equals the sample standard deviation of its two
gaps) and to the two-event student of evs_c8b (stored value 0). -/
theorem c8_amended_witness :
    (3 ≤ total_acts evs_c8w 1 ∧
      some (featureVal id evs_c8w 0 6 1 .consist) =
        sample_std_of_gaps id (datesOf evs_c8w 1)) ∧
    (total_acts evs_c8b 2 = 2 ∧ featureVal id evs_c8b 1 4 2 .consist = 0) :=
  ⟨⟨by decide, (c8_amended_consistency_is_sample_std id evs_c8w 0 6 1).1 (by decide)⟩,
   ⟨by decide, (c8_amended_consistency_is_sample_std id evs_c8b 1 4 2).2 (by decide)⟩⟩

/-- C10: the raw per-group aggregate is NaN for a student with exactly
two events (the single-gap sample standard deviation), and the feature
frame zero-fill turns every below-three-event student — not only the
below-two ones — into the defined value 0. -/
theorem c10_consistency_zero_below_three_events (sqrtQ : ℚ → ℚ) (evs : List Event)
    (minD maxD : Int) (s : Nat) :
    (total_acts evs s = 2 → activity_consist sqrtQ evs s = none) ∧
    (total_acts evs s < 3 → featureVal sqrtQ evs minD maxD s .consist = 0) := by
  have hlen : (datesOf evs s).length = total_acts evs s := datesOf_length evs s
  have hglen : (dayGaps (sortDates (datesOf evs s))).length
      = (datesOf evs s).length - 1 := by
    rw [dayGaps_length, sortDates_length]
  have hnan : total_acts evs s = 2 → activity_consist sqrtQ evs s = none := by
    intro h2eq
    have h2 : ¬ (datesOf evs s).length < 2 := by omega
    have hpos : 0 < (dayGaps (sortDates (datesOf evs s))).length := by omega
    have hemp := isEmpty_eq_false_of_length_pos hpos
    have hcond : (dayGaps (sortDates (datesOf evs s))).length < 2 := by omega
    simp [activity_consist, stdev_gap, h2, hemp, seriesStd, List.length_map, hcond]
  refine ⟨hnan, fun h3 => ?_⟩
  rcases Nat.lt_or_ge (total_acts evs s) 2 with hlt | hge
  · have hd : (datesOf evs s).length < 2 := by omega
    simp [featureVal, activity_consist, stdev_gap, hd]
  · have h2eq : total_acts evs s = 2 := by omega
    simp [featureVal, hnan h2eq]

/-- C10 witness: the two-event student of evs_c10 has a NaN raw
aggregate and a zero-filled feature value. -/
theorem c10_consistency_zero_witness :
    (total_acts evs_c10 1 = 2 ∧ activity_consist id evs_c10 1 = none) ∧
    (total_acts evs_c10 1 < 3 ∧ featureVal id evs_c10 0 7 1 .consist = 0) :=
  ⟨⟨by decide, (c10_consistency_zero_below_three_events id evs_c10 0 7 1).1 (by decide)⟩,
   ⟨by decide, (c10_consistency_zero_below_three_events id evs_c10 0 7 1).2 (by decide)⟩⟩

end VLE
